import Mathlib

/-!
# Verification of the `respond` HTTP response-formatting package

Shallow embedding of the package's core logic:

* the error classifier `toErrorResponse` (from the unnamed source file with
  `errorResponse`, `ErrorWithStatus`, `ErrorWithStatusCode`, `ErrorWithCode`),
* the raw-content resolver `rawContentType` / `rawContentDisposition` and the
  raw writer `writeRaw` (respond.go),
* the dispatcher `Reply`, `Fail`, `Redirect`, `RedirectPermanent` and the
  convenience failure wrappers (respond.go).

Go errors are modelled as a non-empty wrap chain of nodes; each node may
implement any subset of the three status-capability interfaces (a method
returning an `int`).  `errors.As` is modelled by `errAs`, a first-match scan
down the chain.  The HTTP response writer is modelled as a trace of write
events; `http.Redirect` is an external primitive (per the spec it is outside
the core), recorded as a single `redirect` event.
-/

namespace Respond

/-- One link of a Go error's wrap chain.  `message` is what `Error()` returns
for this link; `status`, `statusCode`, `code` are `some v` exactly when the
link's dynamic type implements `Status() int`, `StatusCode() int`,
`Code() int` respectively (returning `v`). -/
structure ErrNode where
  message : String
  status : Option Int
  statusCode : Option Int
  code : Option Int
deriving DecidableEq

/-- A Go error value: the outermost link plus the rest of its unwrap chain
(`errors.Unwrap` applied repeatedly).  `head.message` is `err.Error()`. -/
structure GoError where
  head : ErrNode
  rest : List ErrNode
deriving DecidableEq

/-- The full chain scanned by `errors.As`: the error itself, then each
unwrap result in order. -/
def GoError.chain (e : GoError) : List ErrNode := e.head :: e.rest

/-- An error created by `fmt.Errorf` with no `%w` verb and no status
capability: just a message. -/
def plainError (msg : String) : GoError :=
  ⟨⟨msg, none, none, none⟩, []⟩

/-- Struct `errorResponse`: `Status int` (json tag "status"),
`Message string` (json tag "message,omitempty"). -/
structure errorResponse where
  Status : Int
  Message : String
deriving DecidableEq

/-- Constant `errorResponseUnknown`: the designated fallback descriptor. -/
def errorResponseUnknown : errorResponse :=
  ⟨500, "unknown error"⟩

/-- An `errorResponse` used as a Go error value: it implements `Error()`
(returning `Message`) and `StatusCode()` (returning `Status`); it has no
`Status()` or `Code()` method and does not wrap anything. -/
def errorResponse.asError (e : errorResponse) : GoError :=
  ⟨⟨e.Message, none, some e.Status, none⟩, []⟩

/-- Embedding of `errors.As(err, &target)` for one of the three capability interfaces:
scan the unwrap chain for the first link implementing the capability; the
match yields the capability's integer and that link's own `Error()` string. -/
def errAs (get : ErrNode → Option Int) : List ErrNode → Option (Int × String)
  | [] => none
  | n :: rest =>
    match get n with
    | some v => some (v, n.message)
    | none => errAs get rest

/-- Classifier `toErrorResponse`: classify an error into an `errorResponse`.  `nil`
maps to `errorResponseUnknown`; otherwise try `errors.As` for
`ErrorWithStatus`, then `ErrorWithStatusCode`, then `ErrorWithCode`; if none
matches anywhere in the chain, fall back to status 500 with the error's own
message (`err.Error()`, i.e. the outermost link's message). -/
def toErrorResponse : Option GoError → errorResponse
  | none => errorResponseUnknown
  | some e =>
    match errAs ErrNode.status e.chain with
    | some (s, m) => ⟨s, m⟩
    | none =>
      match errAs ErrNode.statusCode e.chain with
      | some (s, m) => ⟨s, m⟩
      | none =>
        match errAs ErrNode.code e.chain with
        | some (s, m) => ⟨s, m⟩
        | none => ⟨500, e.head.message⟩

/-- Lower-case hex digit, as produced by Go's JSON encoder in
`\u00XX` escapes. -/
def hexDigit (n : Nat) : Char :=
  if n < 10 then Char.ofNat (48 + n) else Char.ofNat (87 + n)

/-- Go `encoding/json` escaping of a single character inside a string
literal (default encoder: HTML-escapes `<`, `>`, `&`). -/
def jsonEscapeChar (c : Char) : String :=
  if c = '"' then "\\\""
  else if c = '\\' then "\\\\"
  else if c = '\n' then "\\n"
  else if c = '\r' then "\\r"
  else if c = '\t' then "\\t"
  else if c = '<' then "\\u003c"
  else if c = '>' then "\\u003e"
  else if c = '&' then "\\u0026"
  else if c.toNat < 32 then
    "\\u00" ++ String.singleton (hexDigit (c.toNat / 16))
      ++ String.singleton (hexDigit (c.toNat % 16))
  else String.singleton c

/-- Go JSON string literal for `s`. -/
def jsonQuote (s : String) : String :=
  "\"" ++ String.join (s.data.map jsonEscapeChar) ++ "\""

/-- Result of `json.Marshal` on an `errorResponse`: `status` always present,
`message` omitted when empty (tag `omitempty`).  Marshalling this struct
never fails. -/
def marshalErrorResponse (e : errorResponse) : String :=
  if e.Message = "" then
    "\x7b\"status\":" ++ toString e.Status ++ "\x7d"
  else
    "\x7b\"status\":" ++ toString e.Status ++ ",\"message\":"
      ++ jsonQuote e.Message ++ "\x7d"

/-- One observable interaction with the `http.ResponseWriter` sink.
`redirect` is the external `http.Redirect` primitive (it sets the
`Location` header and writes the given status); `close` is the deferred
`Close()` call on a closable raw stream. -/
inductive WriteEvent where
  | setHeader (name value : String)
  | writeStatus (code : Int)
  | writeBody (bytes : String)
  | redirect (url : String) (code : Int)
  | close
deriving DecidableEq

/-- Whether an event is the stream-close call. -/
def WriteEvent.isClose : WriteEvent → Bool
  | .close => true
  | _ => false

/-- Whether an event is a redirect write. -/
def WriteEvent.isRedirect : WriteEvent → Bool
  | .redirect _ _ => true
  | _ => false

/-- Embedding of `http.Error(res, msg, code)`: sets plain-text headers, writes the status
and the message followed by a newline. -/
def httpError (msg : String) (code : Int) : List WriteEvent :=
  [.setHeader "Content-Type" "text/plain; charset=utf-8",
   .setHeader "X-Content-Type-Options" "nosniff",
   .writeStatus code,
   .writeBody (msg ++ "\n")]

/-- Embedding of `writeJSON(res, status, value)` given the outcome of
`json.Marshal(value)`: on a marshal error, respond via `http.Error` with a
500 and the "json marshal error: ..." text; otherwise set the JSON content
type, write the requested status and the marshalled bytes. -/
def writeJSON (status : Int) (marshalResult : Except String String) : List WriteEvent :=
  match marshalResult with
  | .error e => httpError ("json marshal error: " ++ e) 500
  | .ok jsonBytes =>
    [.setHeader "Content-Type" "application/json",
     .writeStatus status,
     .writeBody jsonBytes]

/-- An `io.Reader` result value.  `contentType` / `fileName` are `some s`
exactly when the dynamic type also implements `ContentTypeSpecified` /
`FileNameSpecified` (returning `s`); `closable` is whether it implements
`io.Closer`.  `data` is the byte content that `io.Copy` relays before it
stops, and `readErr` is the read error that stops the copy early, if any
(`writeRaw` discards the copy error: `_, _ = io.Copy(res, value)`). -/
structure RawStream where
  contentType : Option String
  fileName : Option String
  closable : Bool
  data : String
  readErr : Option String
deriving DecidableEq

/-- Resolver `rawContentType`: "application/octet-stream" unless the reader
implements `ContentTypeSpecified` and returns a non-empty string. -/
def rawContentType (v : RawStream) : String :=
  match v.contentType with
  | none => "application/octet-stream"
  | some ct => if ct = "" then "application/octet-stream" else ct

/-- Resolver `rawContentDisposition`: "inline" unless the reader implements
`FileNameSpecified` and returns a non-empty name, in which case
`attachment; filename="<name>"`. -/
def rawContentDisposition (v : RawStream) : String :=
  match v.fileName with
  | none => "inline"
  | some n => if n = "" then "inline" else "attachment; filename=\"" ++ n ++ "\""

/-- Embedding of `writeRaw(res, status, value)`: a deferred `Close()` is registered first
(when the reader is an `io.Closer`) and therefore runs last, on every exit
path; headers are resolved, the status written, and the bytes copied with
the copy error discarded. -/
def writeRaw (status : Int) (v : RawStream) : List WriteEvent :=
  [.setHeader "Content-Type" (rawContentType v),
   .setHeader "Content-Disposition" (rawContentDisposition v),
   .writeStatus status,
   .writeBody v.data]
  ++ (if v.closable then [.close] else [])

/-- A handler result value as seen by `Reply`'s type switch: `redirect` is
`some url` exactly when the dynamic type implements `Redirector` (whose
`Redirect()` returns `url`); `reader` is `some s` exactly when it is an
`io.Reader`; `marshal` is the outcome of `json.Marshal` on it. -/
structure GoValue where
  redirect : Option String
  reader : Option RawStream
  marshal : Except String String

/-- Helper `firstError`: the first non-nil error of the variadic list, or nil. -/
def firstError : List (Option GoError) → Option GoError
  | [] => none
  | err :: rest =>
    match err with
    | some e => some e
    | none => firstError rest

/-- Embedding of `Responder.Fail(err)`: classify and write the descriptor as JSON with
the descriptor's own status.  Marshalling an `errorResponse` never fails. -/
def Fail (err : Option GoError) : List WriteEvent :=
  writeJSON (toErrorResponse err).Status
    (Except.ok (marshalErrorResponse (toErrorResponse err)))

/-- Embedding of `http.Redirect(w, req, url, code)`: external redirect-writing
primitive. -/
def httpRedirect (url : String) (code : Int) : List WriteEvent :=
  [.redirect url code]

/-- Embedding of `Responder.Redirect` after `fmt.Sprintf` substitution has produced
`uri`: an empty resolved URL fails; otherwise a 307 redirect. -/
def Redirect (uri : String) : List WriteEvent :=
  if uri = "" then Fail (some (plainError "unable to redirect to empty url"))
  else httpRedirect uri 307

/-- Embedding of `Responder.RedirectPermanent` after substitution: an empty resolved URL
fails; otherwise a 308 redirect. -/
def RedirectPermanent (uri : String) : List WriteEvent :=
  if uri = "" then Fail (some (plainError "unable to redirect to empty url"))
  else httpRedirect uri 308

/-- Embedding of `Responder.Reply(status, value, errs...)`: the first non-nil error, if
any, wins and routes to `Fail`; otherwise the value's shape is inspected in
order `Redirector`, `io.Reader`, plain JSON value. -/
def Reply (status : Int) (value : GoValue) (errs : List (Option GoError)) : List WriteEvent :=
  match firstError errs with
  | some e => Fail (some e)
  | none =>
    match value.redirect with
    | some url => Redirect url
    | none =>
      match value.reader with
      | some stream => writeRaw status stream
      | none => writeJSON status value.marshal

/-- Embedding of `Responder.BadRequest` (message already `Sprintf`-formatted). -/
def BadRequest (msg : String) : List WriteEvent :=
  Fail (some (errorResponse.asError ⟨400, msg⟩))

/-- Embedding of `Responder.Unauthorized` (message already `Sprintf`-formatted). -/
def Unauthorized (msg : String) : List WriteEvent :=
  Fail (some (errorResponse.asError ⟨401, msg⟩))

/-- Embedding of `Responder.NotFound` (message already `Sprintf`-formatted). -/
def NotFound (msg : String) : List WriteEvent :=
  Fail (some (errorResponse.asError ⟨404, msg⟩))

/-- Embedding of `Responder.InternalServerError` (message already `Sprintf`-formatted). -/
def InternalServerError (msg : String) : List WriteEvent :=
  Fail (some (errorResponse.asError ⟨500, msg⟩))

/-- Number of status capabilities a single chain link implements. -/
def ErrNode.capCount (n : ErrNode) : Nat :=
  (if n.status.isSome then 1 else 0)
    + (if n.statusCode.isSome then 1 else 0)
    + (if n.code.isSome then 1 else 0)

/-- Total number of status capabilities implemented across a chain. -/
def chainCapCount (l : List ErrNode) : Nat :=
  (l.map ErrNode.capCount).sum

/-- The integers written by `writeStatus` events of a trace, in order. -/
def statusWrites (t : List WriteEvent) : List Int :=
  t.filterMap fun ev =>
    match ev with
    | .writeStatus c => some c
    | _ => none

/-- Scanning with `errors.As` finds nothing when no link implements the capability. -/
theorem errAs_eq_none (get : ErrNode → Option Int) (l : List ErrNode)
    (h : ∀ n ∈ l, get n = none) : errAs get l = none := by
  induction l with
  | nil => rfl
  | cons a t ih =>
    have ha := h a (List.mem_cons_self a t)
    simp only [errAs, ha]
    exact ih fun n hn => h n (List.mem_cons_of_mem a hn)

/-- Scanning with `errors.As` finds the unique link implementing the capability. -/
theorem errAs_unique_match (get : ErrNode → Option Int) (l : List ErrNode)
    (n : ErrNode) (v : Int) (hmem : n ∈ l) (hn : get n = some v)
    (hothers : ∀ m ∈ l, m ≠ n → get m = none) :
    errAs get l = some (v, n.message) := by
  induction l with
  | nil => cases hmem
  | cons a t ih =>
    by_cases han : a = n
    · subst han
      simp [errAs, hn]
    · have ha0 : get a = none := hothers a (List.mem_cons_self a t) han
      simp only [errAs, ha0]
      have hmem' : n ∈ t := by
        rcases List.mem_cons.mp hmem with h | h
        · exact absurd h.symm han
        · exact h
      exact ih hmem' fun m hm hne => hothers m (List.mem_cons_of_mem a hm) hne

/-- Every element of a list of naturals summing to zero is zero. -/
theorem sum_eq_zero_mem {l : List Nat} (h : l.sum = 0) {x : Nat} (hx : x ∈ l) :
    x = 0 := by
  induction l with
  | nil => cases hx
  | cons a t ih =>
    simp only [List.sum_cons] at h
    rcases List.mem_cons.mp hx with hxa | hxt
    · omega
    · exact ih (by omega) hxt

/-- A link with no capability at all implements none of the three. -/
theorem capCount_zero (n : ErrNode) (h : n.capCount = 0) :
    n.status = none ∧ n.statusCode = none ∧ n.code = none := by
  cases hs : n.status <;> cases hsc : n.statusCode <;> cases hc : n.code <;>
    simp_all [ErrNode.capCount]

/-- In a chain with exactly one capability in total, the link holding a
capability holds exactly one, and every other link holds none. -/
theorem chainCapCount_one (l : List ErrNode) (n : ErrNode)
    (hsum : chainCapCount l = 1) (hmem : n ∈ l) (hpos : 1 ≤ n.capCount) :
    n.capCount = 1 ∧ ∀ m ∈ l, m ≠ n → m.capCount = 0 := by
  obtain ⟨s, t, rfl⟩ := List.append_of_mem hmem
  have hsplit : chainCapCount (s ++ n :: t)
      = (s.map ErrNode.capCount).sum + (n.capCount + (t.map ErrNode.capCount).sum) := by
    simp [chainCapCount]
  rw [hsplit] at hsum
  have hs0 : (s.map ErrNode.capCount).sum = 0 := by omega
  have ht0 : (t.map ErrNode.capCount).sum = 0 := by omega
  refine ⟨by omega, ?_⟩
  intro m hm hne
  rcases List.mem_append.mp hm with hms | hmt
  · exact sum_eq_zero_mem hs0 (List.mem_map_of_mem ErrNode.capCount hms)
  · rcases List.mem_cons.mp hmt with hmn | hmt'
    · exact absurd hmn hne
    · exact sum_eq_zero_mem ht0 (List.mem_map_of_mem ErrNode.capCount hmt')

/-- A link implementing any capability has a positive capability count. -/
theorem capCount_pos (n : ErrNode)
    (h : n.status.isSome ∨ n.statusCode.isSome ∨ n.code.isSome) :
    1 ≤ n.capCount := by
  cases hs : n.status <;> cases hsc : n.statusCode <;> cases hc : n.code <;>
    simp_all [ErrNode.capCount]

/-- A link implementing exactly one capability implements no other. -/
theorem capCount_one_of (n : ErrNode) (hn1 : n.capCount = 1) :
    (n.status.isSome → n.statusCode = none ∧ n.code = none)
    ∧ (n.statusCode.isSome → n.status = none ∧ n.code = none)
    ∧ (n.code.isSome → n.status = none ∧ n.statusCode = none) := by
  cases hs : n.status <;> cases hsc : n.statusCode <;> cases hc : n.code <;>
    simp_all [ErrNode.capCount]

/-- Claim C1: an error whose wrap chain exposes exactly one status
capability, returning integer `S` on the link whose message is `M`, is
classified as `⟨S, M⟩`; and with several capabilities present, they are
tried in the fixed priority order `Status`, then `StatusCode`, then `Code`,
the first link found anywhere in the chain for the winning capability
determining the status and message. -/
theorem classify_single_capability_priority (e : GoError) :
    (∀ (n : ErrNode) (S : Int), chainCapCount e.chain = 1 → n ∈ e.chain →
        (n.status = some S ∨ n.statusCode = some S ∨ n.code = some S) →
        toErrorResponse (some e) = ⟨S, n.message⟩)
    ∧ (∀ (s : Int) (m : String), errAs ErrNode.status e.chain = some (s, m) →
        toErrorResponse (some e) = ⟨s, m⟩)
    ∧ (∀ (s : Int) (m : String), errAs ErrNode.status e.chain = none →
        errAs ErrNode.statusCode e.chain = some (s, m) →
        toErrorResponse (some e) = ⟨s, m⟩)
    ∧ (∀ (s : Int) (m : String), errAs ErrNode.status e.chain = none →
        errAs ErrNode.statusCode e.chain = none →
        errAs ErrNode.code e.chain = some (s, m) →
        toErrorResponse (some e) = ⟨s, m⟩) := by
  refine ⟨?_, ?_, ?_, ?_⟩
  · intro n S hone hmem hcap
    have hpos : 1 ≤ n.capCount := by
      apply capCount_pos
      rcases hcap with h | h | h
      · exact Or.inl (by simp [h])
      · exact Or.inr (Or.inl (by simp [h]))
      · exact Or.inr (Or.inr (by simp [h]))
    obtain ⟨hn1, hothers⟩ := chainCapCount_one e.chain n hone hmem hpos
    have hnone : ∀ m ∈ e.chain, m ≠ n →
        m.status = none ∧ m.statusCode = none ∧ m.code = none :=
      fun m hm hne => capCount_zero m (hothers m hm hne)
    rcases hcap with h | h | h
    · have hfind : errAs ErrNode.status e.chain = some (S, n.message) :=
        errAs_unique_match _ _ n S hmem h fun m hm hne => (hnone m hm hne).1
      simp [toErrorResponse, hfind]
    · obtain ⟨hns, _⟩ := (capCount_one_of n hn1).2.1 (by simp [h])
      have h1 : errAs ErrNode.status e.chain = none := by
        apply errAs_eq_none
        intro m hm
        by_cases hmn : m = n
        · subst hmn; exact hns
        · exact (hnone m hm hmn).1
      have hfind : errAs ErrNode.statusCode e.chain = some (S, n.message) :=
        errAs_unique_match _ _ n S hmem h fun m hm hne => (hnone m hm hne).2.1
      simp [toErrorResponse, h1, hfind]
    · obtain ⟨hns, hnsc⟩ := (capCount_one_of n hn1).2.2 (by simp [h])
      have h1 : errAs ErrNode.status e.chain = none := by
        apply errAs_eq_none
        intro m hm
        by_cases hmn : m = n
        · subst hmn; exact hns
        · exact (hnone m hm hmn).1
      have h2 : errAs ErrNode.statusCode e.chain = none := by
        apply errAs_eq_none
        intro m hm
        by_cases hmn : m = n
        · subst hmn; exact hnsc
        · exact (hnone m hm hmn).2.1
      have hfind : errAs ErrNode.code e.chain = some (S, n.message) :=
        errAs_unique_match _ _ n S hmem h fun m hm hne => (hnone m hm hne).2.2
      simp [toErrorResponse, h1, h2, hfind]
  · intro s m hfind
    simp [toErrorResponse, hfind]
  · intro s m h1 hfind
    simp [toErrorResponse, h1, hfind]
  · intro s m h1 h2 hfind
    simp [toErrorResponse, h1, h2, hfind]

/-- Claim C1 witness: a `Code`-capable link two levels deep in the wrap
chain yields its 404 and its own message. -/
theorem classify_single_capability_priority_witness :
    toErrorResponse (some ⟨⟨"outer", none, none, none⟩,
        [⟨"inner", none, none, some 404⟩]⟩)
      = ⟨404, "inner"⟩ :=
  (classify_single_capability_priority
      ⟨⟨"outer", none, none, none⟩, [⟨"inner", none, none, some 404⟩]⟩).1
    ⟨"inner", none, none, some 404⟩ 404 (by decide)
    (by simp [GoError.chain]) (Or.inr (Or.inr rfl))

/-- Claim C2: `Reply` resolves the effective error as the first non-absent
element of the variadic list; when one exists, the requested status and the
value are ignored entirely and the response is a single JSON failure write
with the classifier's status and the `{"status":..,"message":..}` body, the
`message` field omitted when empty. -/
theorem reply_error_route :
    (∀ errs : List (Option GoError), firstError errs = (errs.filterMap id).head?)
    ∧ (∀ (status : Int) (value : GoValue) (errs : List (Option GoError)) (e : GoError),
        firstError errs = some e →
        Reply status value errs =
          [.setHeader "Content-Type" "application/json",
           .writeStatus (toErrorResponse (some e)).Status,
           .writeBody (marshalErrorResponse (toErrorResponse (some e)))]
        ∧ (∀ (status' : Int) (value' : GoValue),
            Reply status' value' errs = Reply status value errs)
        ∧ ((toErrorResponse (some e)).Message = "" →
            marshalErrorResponse (toErrorResponse (some e)) =
              "\x7b\"status\":" ++ toString (toErrorResponse (some e)).Status ++ "\x7d")) := by
  constructor
  · intro errs
    induction errs with
    | nil => rfl
    | cons a t ih =>
      cases a with
      | some e => simp [firstError, List.filterMap_cons]
      | none => simpa [firstError, List.filterMap_cons] using ih
  · intro status value errs e h
    refine ⟨?_, ?_, ?_⟩
    · simp [Reply, h, Fail, writeJSON]
    · intro status' value'
      simp [Reply, h]
    · intro hmsg
      simp [marshalErrorResponse, hmsg]

/-- Claim C2 witness: with value `"hello"` and a 401-coded error of message
`"moo"` in second position, the reply is the JSON failure write for 401. -/
theorem reply_error_route_witness :
    Reply 200 ⟨none, none, Except.ok "\"hello\""⟩
        [none, some ⟨⟨"moo", none, none, some 401⟩, []⟩] =
      [.setHeader "Content-Type" "application/json",
       .writeStatus (toErrorResponse (some ⟨⟨"moo", none, none, some 401⟩, []⟩)).Status,
       .writeBody (marshalErrorResponse
          (toErrorResponse (some ⟨⟨"moo", none, none, some 401⟩, []⟩)))] :=
  (reply_error_route.2 200 ⟨none, none, Except.ok "\"hello\""⟩
      [none, some ⟨⟨"moo", none, none, some 401⟩, []⟩]
      ⟨⟨"moo", none, none, some 401⟩, []⟩ rfl).1

/-- Claim C3: an error implementing none of the three capabilities anywhere
in its chain is classified as 500 with its own message, and a nil error is
classified as the fallback descriptor `⟨500, "unknown error"⟩`. -/
theorem classify_no_capability (e : GoError)
    (h : ∀ n ∈ e.chain, n.status = none ∧ n.statusCode = none ∧ n.code = none) :
    toErrorResponse (some e) = ⟨500, e.head.message⟩
    ∧ toErrorResponse none = ⟨500, "unknown error"⟩ := by
  have hs := errAs_eq_none ErrNode.status e.chain fun n hn => (h n hn).1
  have hsc := errAs_eq_none ErrNode.statusCode e.chain fun n hn => (h n hn).2.1
  have hc := errAs_eq_none ErrNode.code e.chain fun n hn => (h n hn).2.2
  exact ⟨by simp [toErrorResponse, hs, hsc, hc], rfl⟩

/-- Claim C3 witness: a bare `fmt.Errorf("blah")` error classifies to
`⟨500, "blah"⟩`. -/
theorem classify_no_capability_witness :
    toErrorResponse (some (plainError "blah")) = ⟨500, "blah"⟩
    ∧ toErrorResponse none = ⟨500, "unknown error"⟩ :=
  classify_no_capability (plainError "blah") (by decide)

/-- Claim C4 counterexample: when marshalling fails, the reply is the
plain-text `http.Error` write, which is not the classifier's JSON failure
write — not even for the very same failure message; in particular its
content type is `text/plain`, not `application/json`. -/
theorem reply_marshal_failure_counterexample :
    Reply 200 ⟨none, none, Except.error "json: unsupported type: chan int"⟩ [] =
      [.setHeader "Content-Type" "text/plain; charset=utf-8",
       .setHeader "X-Content-Type-Options" "nosniff",
       .writeStatus 500,
       .writeBody "json marshal error: json: unsupported type: chan int\n"]
    ∧ Reply 200 ⟨none, none, Except.error "json: unsupported type: chan int"⟩ []
        ≠ Fail (some (plainError "json marshal error: json: unsupported type: chan int")) := by
  constructor
  · rfl
  · decide

/-- Claim C4 amended: when JSON encoding of the value fails during a reply,
the response is a single, complete plain-text error write with status 500
and body `json marshal error: <reason>` — never half-written or silently
empty — but it bypasses the error classifier and is not a JSON failure
write. -/
theorem reply_marshal_failure_plaintext (status : Int) (v : GoValue) (emsg : String)
    (hr : v.redirect = none) (hd : v.reader = none)
    (hm : v.marshal = Except.error emsg) :
    Reply status v [] = httpError ("json marshal error: " ++ emsg) 500
    ∧ statusWrites (Reply status v []) = [500]
    ∧ Reply status v [] ≠ []
    ∧ (Reply status v []).getLast? =
        some (.writeBody ("json marshal error: " ++ emsg ++ "\n")) := by
  have ht : Reply status v [] = httpError ("json marshal error: " ++ emsg) 500 := by
    simp [Reply, firstError, hr, hd, hm, writeJSON]
  refine ⟨ht, ?_, ?_, ?_⟩
  · rw [ht]; rfl
  · rw [ht]; simp [httpError]
  · rw [ht]; rfl

/-- Claim C4 amended witness: a value failing to marshal with reason
`"boom"` produces the complete plain-text 500 write. -/
theorem reply_marshal_failure_plaintext_witness :
    Reply 200 ⟨none, none, Except.error "boom"⟩ [] =
      httpError ("json marshal error: " ++ "boom") 500
    ∧ statusWrites (Reply 200 ⟨none, none, Except.error "boom"⟩ []) = [500]
    ∧ Reply 200 ⟨none, none, Except.error "boom"⟩ [] ≠ []
    ∧ (Reply 200 ⟨none, none, Except.error "boom"⟩ []).getLast? =
        some (.writeBody ("json marshal error: " ++ "boom" ++ "\n")) :=
  reply_marshal_failure_plaintext 200 ⟨none, none, Except.error "boom"⟩ "boom"
    rfl rfl rfl

/-- Claim C5: the resolved content type of a raw stream is
`application/octet-stream` when the content-type capability is absent or
returns the empty string, and the capability's string otherwise; the
resolved header value is never empty. -/
theorem raw_content_type_resolution (s : RawStream) :
    (s.contentType = none → rawContentType s = "application/octet-stream")
    ∧ (s.contentType = some "" → rawContentType s = "application/octet-stream")
    ∧ (∀ ct, s.contentType = some ct → ct ≠ "" → rawContentType s = ct)
    ∧ rawContentType s ≠ "" := by
  refine ⟨?_, ?_, ?_, ?_⟩
  · intro h; simp [rawContentType, h]
  · intro h; simp [rawContentType, h]
  · intro ct h hne; simp [rawContentType, h, hne]
  · cases h : s.contentType with
    | none => simp [rawContentType, h]
    | some ct =>
      by_cases hne : ct = "" <;> simp [rawContentType, h, hne]

/-- Claim C5 witness: a stream overriding the content type with the empty
string still resolves to the octet-stream default, and one returning
`image/jpeg` resolves to it. -/
theorem raw_content_type_resolution_witness :
    rawContentType ⟨some "", none, false, "", none⟩ = "application/octet-stream"
    ∧ rawContentType ⟨some "image/jpeg", none, false, "", none⟩ = "image/jpeg" :=
  ⟨(raw_content_type_resolution ⟨some "", none, false, "", none⟩).2.1 rfl,
   (raw_content_type_resolution ⟨some "image/jpeg", none, false, "", none⟩).2.2.1
     "image/jpeg" rfl (by decide)⟩

/-- Claim C6: the resolved disposition of a raw stream is `inline` when the
file-name capability is absent or returns the empty string, and exactly
`attachment; filename="<name>"` when it returns a non-empty name. -/
theorem raw_content_disposition_resolution (s : RawStream) :
    (s.fileName = none → rawContentDisposition s = "inline")
    ∧ (s.fileName = some "" → rawContentDisposition s = "inline")
    ∧ (∀ n, s.fileName = some n → n ≠ "" →
        rawContentDisposition s = "attachment; filename=\"" ++ n ++ "\"") := by
  refine ⟨?_, ?_, ?_⟩
  · intro h; simp [rawContentDisposition, h]
  · intro h; simp [rawContentDisposition, h]
  · intro n h hne; simp [rawContentDisposition, h, hne]

/-- Claim C6 witness: a file name of `a.log` yields the attachment
disposition; the empty name yields `inline`. -/
theorem raw_content_disposition_resolution_witness :
    rawContentDisposition ⟨none, some "a.log", false, "", none⟩ =
      "attachment; filename=\"a.log\""
    ∧ rawContentDisposition ⟨none, some "", false, "", none⟩ = "inline" :=
  ⟨(raw_content_disposition_resolution ⟨none, some "a.log", false, "", none⟩).2.2
      "a.log" rfl (by decide),
   (raw_content_disposition_resolution ⟨none, some "", false, "", none⟩).2.1 rfl⟩

/-- Claim C7: a redirect (temporary or permanent) whose URL template
resolves to the empty string is written as the classified 500 failure
response — status 500 and the JSON failure body — and no redirect write ever
occurs on that path. -/
theorem empty_redirect_is_failure :
    Redirect "" =
      [.setHeader "Content-Type" "application/json",
       .writeStatus 500,
       .writeBody "\x7b\"status\":500,\"message\":\"unable to redirect to empty url\"\x7d"]
    ∧ RedirectPermanent "" = Redirect ""
    ∧ (toErrorResponse (some (plainError "unable to redirect to empty url"))).Status = 500
    ∧ (Redirect "").all (fun ev => !ev.isRedirect) = true
    ∧ (RedirectPermanent "").all (fun ev => !ev.isRedirect) = true := by
  refine ⟨by decide, rfl, rfl, by decide, by decide⟩

/-- Claim C8: with no effective error, a value implementing the redirect
directive routes `Reply` to the redirect writer, which uses the fixed 307
code of the temporary entry point (the permanent entry point uses the fixed
308), and the requested status argument is ignored entirely. -/
theorem reply_redirector_value (status : Int) (v : GoValue) (url : String)
    (errs : List (Option GoError))
    (hr : v.redirect = some url) (he : firstError errs = none) :
    Reply status v errs = Redirect url
    ∧ (url ≠ "" → Reply status v errs = [.redirect url 307])
    ∧ (∀ status' : Int, Reply status' v errs = Reply status v errs)
    ∧ (url ≠ "" → RedirectPermanent url = [.redirect url 308]) := by
  refine ⟨?_, ?_, ?_, ?_⟩
  · simp [Reply, he, hr]
  · intro hne; simp [Reply, he, hr, Redirect, hne, httpRedirect]
  · intro status'; simp [Reply, he, hr]
  · intro hne; simp [RedirectPermanent, hne, httpRedirect]

/-- Claim C8 witness: replying 200 with a redirector value targeting
`/login` produces the fixed 307 redirect write. -/
theorem reply_redirector_value_witness :
    Reply 200 ⟨some "/login", none, Except.ok "ignored"⟩ [none] =
      [.redirect "/login" 307] :=
  (reply_redirector_value 200 ⟨some "/login", none, Except.ok "ignored"⟩
      "/login" [none] rfl rfl).2.1 (by decide)

/-- Claim C9: writing a closable raw stream emits the deferred `Close()`
exactly once, after the body copy, and this count is unchanged by whether
the stream's read fails mid-copy (the copy error is discarded, the deferred
close still runs). -/
theorem raw_close_guaranteed (status : Int) (s : RawStream)
    (h : s.closable = true) :
    writeRaw status s =
      [.setHeader "Content-Type" (rawContentType s),
       .setHeader "Content-Disposition" (rawContentDisposition s),
       .writeStatus status,
       .writeBody s.data,
       .close]
    ∧ (writeRaw status s).countP WriteEvent.isClose = 1
    ∧ (∀ rerr : Option String,
        (writeRaw status ⟨s.contentType, s.fileName, s.closable, s.data, rerr⟩).countP
          WriteEvent.isClose = 1) := by
  refine ⟨by simp [writeRaw, h], ?_, ?_⟩
  · simp [writeRaw, h, List.countP_cons, WriteEvent.isClose]
  · intro rerr
    simp [writeRaw, h, List.countP_cons, WriteEvent.isClose]

/-- Claim C9 witness: a closable stream with data and a mid-copy read error
still closes exactly once, after the body write. -/
theorem raw_close_guaranteed_witness :
    writeRaw 200 ⟨none, none, true, "partial", some "read failure"⟩ =
      [.setHeader "Content-Type"
         (rawContentType ⟨none, none, true, "partial", some "read failure"⟩),
       .setHeader "Content-Disposition"
         (rawContentDisposition ⟨none, none, true, "partial", some "read failure"⟩),
       .writeStatus 200,
       .writeBody "partial",
       .close]
    ∧ (writeRaw 200 ⟨none, none, true, "partial", some "read failure"⟩).countP
        WriteEvent.isClose = 1 :=
  ⟨(raw_close_guaranteed 200 ⟨none, none, true, "partial", some "read failure"⟩ rfl).1,
   (raw_close_guaranteed 200 ⟨none, none, true, "partial", some "read failure"⟩ rfl).2.1⟩

/-- The classifier maps an `errorResponse` used as an error (it implements
`StatusCode()` and `Error()`) back to itself. -/
theorem toErrorResponse_asError (d : errorResponse) :
    toErrorResponse (some (errorResponse.asError d)) = d := by
  simp [toErrorResponse, errorResponse.asError, GoError.chain, errAs]

/-- Claim C10: the classifier is a fixed point on its own descriptor type —
classifying `errorResponse ⟨s, m⟩` (which exposes `StatusCode` and message
`m`) returns the equal descriptor — so each convenience failure wrapper
writes exactly its fixed status code and its formatted message unchanged. -/
theorem classifier_fixed_point_wrappers (s : Int) (m : String) :
    toErrorResponse (some (errorResponse.asError ⟨s, m⟩)) = ⟨s, m⟩
    ∧ BadRequest m =
        [.setHeader "Content-Type" "application/json",
         .writeStatus 400,
         .writeBody (marshalErrorResponse ⟨400, m⟩)]
    ∧ Unauthorized m =
        [.setHeader "Content-Type" "application/json",
         .writeStatus 401,
         .writeBody (marshalErrorResponse ⟨401, m⟩)]
    ∧ NotFound m =
        [.setHeader "Content-Type" "application/json",
         .writeStatus 404,
         .writeBody (marshalErrorResponse ⟨404, m⟩)]
    ∧ InternalServerError m =
        [.setHeader "Content-Type" "application/json",
         .writeStatus 500,
         .writeBody (marshalErrorResponse ⟨500, m⟩)] := by
  refine ⟨toErrorResponse_asError ⟨s, m⟩, ?_, ?_, ?_, ?_⟩ <;>
    simp [BadRequest, Unauthorized, NotFound, InternalServerError, Fail,
      writeJSON, toErrorResponse_asError]

/-- Claim C10 witness: a teapot descriptor is a fixed point, and
`NotFound "user not found"` writes exactly 404 with the message unchanged. -/
theorem classifier_fixed_point_wrappers_witness :
    toErrorResponse (some (errorResponse.asError ⟨418, "teapot"⟩)) = ⟨418, "teapot"⟩
    ∧ NotFound "user not found" =
        [.setHeader "Content-Type" "application/json",
         .writeStatus 404,
         .writeBody (marshalErrorResponse ⟨404, "user not found"⟩)] :=
  ⟨(classifier_fixed_point_wrappers 418 "teapot").1,
   (classifier_fixed_point_wrappers 404 "user not found").2.2.2.1⟩

end Respond
